import Mathlib

/-!
# Sentinel: configuration validation and the `run` command

A shallow embedding of `internal/config/config.go` (`Default`, `expandEnvPlaceholders`,
`Validate`) and of `internal/cli/run.go` (`executeRun`), followed by the properties
proved about them.

Conventions of the embedding
* A Go `string` is a Lean `String`, read as its sequence of runes (`String.data`).
* `time.Duration` and `int` are `Int` (no arithmetic is performed on them here, only
  comparisons with zero, so no wrap-around can occur).
* A Go `error` is an `Option`: `none` is `nil`.
* A Go `map[string]Detector` is an association list; indexing is `List.lookup`.
* Library functions that the program calls but whose tables are not part of the
  repository (Unicode case tables, `filepath`, the process environment) and the
  `event` package are collected in the structure `Platform`.
-/

set_option autoImplicit false

namespace Sentinel

/-! ## Data model (`config.go`, lines 14-81) -/

/-- Go `time.Duration`: a signed count of nanoseconds. -/
abbrev Duration := Int

def Millisecond : Duration := 1000000
def Second : Duration := 1000 * Millisecond
def Minute : Duration := 60 * Second
def Hour : Duration := 60 * Minute

structure Detector where
  Enabled : Bool
  deriving DecidableEq, Repr

structure SourceConfig where
  Mode : String
  deriving DecidableEq, Repr

structure PolicyConfig where
  DebounceWindow : Duration
  SuppressionWindow : Duration
  RateLimitPerMin : Int
  BatchSize : Int
  deriving DecidableEq, Repr

structure RouteConfig where
  EventTypes : List String
  Severities : List String
  Sinks : List String
  deriving DecidableEq, Repr

structure SinkConfig where
  Name : String
  Typ : String
  URL : String
  deriving DecidableEq, Repr

structure NotifierConfig where
  IdempotencyKeyTTL : Duration
  Routes : List RouteConfig
  Sinks : List SinkConfig
  deriving DecidableEq, Repr

structure StateConfig where
  Path : String
  IdempotencyKeyTTL : Duration
  deriving DecidableEq, Repr

structure OutputConfig where
  LogFormat : String
  LogLevel : String
  NoColor : Bool
  deriving DecidableEq, Repr

structure TSNetConfig where
  Hostname : String
  StateDir : String
  AuthKey : String
  LoginMode : String
  AllowInteractiveFallback : Bool
  LoginTimeout : Duration
  AuthKeySource : String
  deriving DecidableEq, Repr

structure Config where
  PollInterval : Duration
  PollJitter : Duration
  PollBackoffMin : Duration
  PollBackoffMax : Duration
  Source : SourceConfig
  Detectors : List (String × Detector)
  DetectorOrder : List String
  Policy : PolicyConfig
  Notifier : NotifierConfig
  State : StateConfig
  Output : OutputConfig
  TSNet : TSNetConfig
  deriving DecidableEq, Repr

/-! ## Library functions used by `config.go` -/

/-- What the program takes from outside the files under study. -/
structure Platform where
  /-- `event.IsKnownType` of the repository's `event` package. -/
  IsKnownType : String → Bool
  /-- `unicode.ToLower` on runes at or above `utf8.RuneSelf`. -/
  lowerNonASCII : Char → Char
  /-- The fold-orbit walk of `strings.EqualFold` for a pair `sr < tr` with `tr` at or above
  `utf8.RuneSelf`: does repeated `unicode.SimpleFold` from `sr` land on `tr`. -/
  foldReaches : Char → Char → Bool
  /-- `filepath.IsAbs`. -/
  IsAbs : String → Bool
  /-- `filepath.Clean`. -/
  Clean : String → String
  /-- `os.ExpandEnv` under the environment of the process. -/
  ExpandEnv : String → String

/-- Go `unicode.IsSpace`: the Latin-1 cases and the `White_Space` ranges above Latin-1. -/
def IsSpace (r : Char) : Bool :=
  let n := r.toNat
  if n ≤ 0xFF then
    n == 0x09 || n == 0x0A || n == 0x0B || n == 0x0C || n == 0x0D || n == 0x20
      || n == 0x85 || n == 0xA0
  else
    n == 0x1680 || (0x2000 ≤ n && n ≤ 0x200A) || n == 0x2028 || n == 0x2029
      || n == 0x202F || n == 0x205F || n == 0x3000

/-- Runes of a string with leading and trailing white space removed. -/
def trimRunes (cs : List Char) : List Char :=
  ((cs.dropWhile IsSpace).reverse.dropWhile IsSpace).reverse

/-- Go `strings.TrimSpace`. -/
def TrimSpace (s : String) : String := ⟨trimRunes s.data⟩

/-- Go `unicode.ToLower`: the ASCII branch is explicit, the rest is the platform table. -/
def toLowerRune (P : Platform) (r : Char) : Char :=
  if r.toNat < 0x80 then
    if 0x41 ≤ r.toNat ∧ r.toNat ≤ 0x5A then Char.ofNat (r.toNat + 0x20) else r
  else P.lowerNonASCII r

/-- Go `strings.ToLower`. -/
def ToLower (P : Platform) (s : String) : String := ⟨s.data.map (toLowerRune P)⟩

/-- One step of `strings.EqualFold`: are the two runes equal under simple case folding. -/
def foldEqRune (P : Platform) (sr tr : Char) : Bool :=
  if tr = sr then true
  else
    let lo := if tr.toNat < sr.toNat then tr else sr
    let hi := if tr.toNat < sr.toNat then sr else tr
    if hi.toNat < 0x80 then
      decide (0x41 ≤ lo.toNat ∧ lo.toNat ≤ 0x5A ∧ hi.toNat = lo.toNat + 0x20)
    else P.foldReaches lo hi

/-- Rune-by-rune comparison of `strings.EqualFold`. -/
def equalFoldRunes (P : Platform) : List Char → List Char → Bool
  | [], [] => true
  | sr :: s, tr :: t => foldEqRune P sr tr && equalFoldRunes P s t
  | _, _ => false

/-- Go `strings.EqualFold`. -/
def EqualFold (P : Platform) (s t : String) : Bool := equalFoldRunes P s.data t.data

/-- Does `cs` contain `sub` as a contiguous run. -/
def containsRunes (sub : List Char) : List Char → Bool
  | [] => sub.isPrefixOf []
  | c :: cs => sub.isPrefixOf (c :: cs) || containsRunes sub cs

/-- Go `strings.Contains`. -/
def Contains (s substr : String) : Bool := containsRunes substr.data s.data

/-! ## `Default` (`config.go`, lines 83-128) -/

def Default : Config :=
  { PollInterval := 10 * Second
    PollJitter := 1 * Second
    PollBackoffMin := 500 * Millisecond
    PollBackoffMax := 30 * Second
    Source := { Mode := "realtime" }
    Detectors := [("presence", { Enabled := true }),
                  ("peer_changes", { Enabled := true }),
                  ("runtime", { Enabled := true })]
    DetectorOrder := ["presence", "peer_changes", "runtime"]
    Policy :=
      { DebounceWindow := 3 * Second
        SuppressionWindow := 0
        RateLimitPerMin := 120
        BatchSize := 20 }
    Notifier :=
      { IdempotencyKeyTTL := 24 * Hour
        Routes := [{ EventTypes := ["*"], Severities := [], Sinks := ["stdout-debug"] }]
        Sinks := [{ Name := "stdout-debug", Typ := "stdout", URL := "" },
                  { Name := "webhook-primary", Typ := "webhook",
                    URL := "${SLACK_WEBHOOK_URL}" }] }
    State := { Path := ".sentinel/state.json", IdempotencyKeyTTL := 24 * Hour }
    Output := { LogFormat := "pretty", LogLevel := "info", NoColor := false }
    TSNet :=
      { Hostname := "sentinel"
        StateDir := ".sentinel/tsnet"
        AuthKey := ""
        LoginMode := "auto"
        AllowInteractiveFallback := false
        LoginTimeout := 5 * Minute
        AuthKeySource := "" } }

/-! ## `expandEnvPlaceholders` (`config.go`, lines 184-191) -/

/-- Body of the loop of `expandEnvPlaceholders` for one sink. -/
def expandSink (P : Platform) (sink : SinkConfig) : SinkConfig :=
  let url := TrimSpace sink.URL
  if Contains url "$\x7b" then { sink with URL := P.ExpandEnv url } else sink

/-- The loop `for i := range cfg.Notifier.Sinks`, updating each element in place. -/
def expandSinks (P : Platform) : List SinkConfig → List SinkConfig
  | [] => []
  | sink :: rest => expandSink P sink :: expandSinks P rest

/-- Go `expandEnvPlaceholders(cfg *Config)`: the configuration after the call. -/
def expandEnvPlaceholders (P : Platform) (cfg : Config) : Config :=
  { cfg with Notifier := { cfg.Notifier with Sinks := expandSinks P cfg.Notifier.Sinks } }

/-! ## `Validate` (`config.go`, lines 193-261) -/

/-- The errors `Validate` builds with `fmt.Errorf`, one constructor per message, carrying the
values the message is formatted with. -/
inductive ConfigError where
  | pollInterval
  | batchSize
  | detectorOrderEmpty
  | unknownDetector (name : String)
  | statePath
  | logFormat
  | stateDir
  | loginMode
  | loginTimeout
  | sourceMode
  | routeEventTypesEmpty (i : Nat)
  | eventTypeEmpty (i j : Nat)
  | eventTypeUnknown (i j : Nat) (et : String)
  | sinkType (i : Nat) (type : String)
  | discordURL (i : Nat)
  deriving DecidableEq, Repr

/-- The loop over `cfg.DetectorOrder` (lines 203-207). -/
def validateDetectorOrder (detectors : List (String × Detector)) :
    List String → Option ConfigError
  | [] => none
  | name :: rest =>
    if (detectors.lookup name).isNone then some (.unknownDetector name)
    else validateDetectorOrder detectors rest

/-- The inner loop over `route.EventTypes` (lines 239-247), from index `j`. -/
def validateEventTypes (P : Platform) (i : Nat) : Nat → List String → Option ConfigError
  | _, [] => none
  | j, et :: rest =>
    let et := TrimSpace et
    if et = "" then some (.eventTypeEmpty i j)
    else if et ≠ "*" ∧ P.IsKnownType et = false then some (.eventTypeUnknown i j et)
    else validateEventTypes P i (j + 1) rest

/-- The loop over `cfg.Notifier.Routes` (lines 235-248), from index `i`. -/
def validateRoutes (P : Platform) : Nat → List RouteConfig → Option ConfigError
  | _, [] => none
  | i, route :: rest =>
    if route.EventTypes.length = 0 then some (.routeEventTypesEmpty i)
    else
      match validateEventTypes P i 0 route.EventTypes with
      | some err => some err
      | none => validateRoutes P (i + 1) rest

/-- The `switch sinkType` of line 251: the accepted cases. -/
def sinkTypeSupported (sinkType : String) : Bool :=
  sinkType = "" || sinkType = "webhook" || sinkType = "stdout" || sinkType = "debug"
    || sinkType = "discord"

/-- The loop over `cfg.Notifier.Sinks` (lines 249-259), from index `i`. -/
def validateSinks (P : Platform) : Nat → List SinkConfig → Option ConfigError
  | _, [] => none
  | i, sink :: rest =>
    let sinkType := ToLower P (TrimSpace sink.Typ)
    if sinkTypeSupported sinkType = false then some (.sinkType i sink.Typ)
    else if sinkType = "discord" ∧ TrimSpace sink.URL = "" then some (.discordURL i)
    else validateSinks P (i + 1) rest

/-- Lines 211-213: `Validate` cleans a relative `State.Path` in its own copy of `cfg`. -/
def cleanStatePath (P : Platform) (cfg : Config) : Config :=
  if P.IsAbs cfg.State.Path = false then
    { cfg with State := { cfg.State with Path := P.Clean cfg.State.Path } }
  else cfg

/-- The `switch mode` of line 221: the accepted cases. -/
def loginModeSupported (mode : String) : Bool :=
  mode = "" || mode = "auto" || mode = "auth_key" || mode = "interactive"

/-- The `switch sourceMode` of line 230: the accepted cases. -/
def sourceModeSupported (sourceMode : String) : Bool :=
  sourceMode = "" || sourceMode = "realtime" || sourceMode = "poll"

/-- Go `Validate(cfg Config) error`. -/
def Validate (P : Platform) (cfg : Config) : Option ConfigError :=
  if cfg.PollInterval ≤ 0 then some .pollInterval
  else if cfg.Policy.BatchSize ≤ 0 then some .batchSize
  else if cfg.DetectorOrder.length = 0 then some .detectorOrderEmpty
  else
    match validateDetectorOrder cfg.Detectors cfg.DetectorOrder with
    | some err => some err
    | none =>
      if cfg.State.Path = "" then some .statePath
      else
        let cfg := cleanStatePath P cfg
        if EqualFold P cfg.Output.LogFormat "pretty" = false
            ∧ EqualFold P cfg.Output.LogFormat "json" = false then some .logFormat
        else if cfg.TSNet.StateDir = "" then some .stateDir
        else
          let mode := ToLower P (TrimSpace cfg.TSNet.LoginMode)
          if loginModeSupported mode = false then some .loginMode
          else if cfg.TSNet.LoginTimeout ≤ 0 then some .loginTimeout
          else
            let sourceMode := ToLower P (TrimSpace cfg.Source.Mode)
            if sourceModeSupported sourceMode = false then some .sourceMode
            else
              match validateRoutes P 0 cfg.Notifier.Routes with
              | some err => some err
              | none => validateSinks P 0 cfg.Notifier.Sinks

/-- A platform with ASCII-only case tables, Unix-style absolute paths and no variables set,
used to evaluate the definitions on concrete inputs. -/
def asciiPlatform (known : String → Bool) : Platform :=
  { IsKnownType := known
    lowerNonASCII := fun r => r
    foldReaches := fun _ _ => false
    IsAbs := fun p => "/".data.isPrefixOf p.data
    Clean := fun p => p
    ExpandEnv := fun s => s }

/-! ## Errors, contexts and the runner (`run.go`) -/

/-- The two error values of package `context` that `executeRun` tests for. -/
inductive ContextErr where
  | Canceled
  | DeadlineExceeded
  deriving DecidableEq, Repr

/-- A non-nil Go `error` value, as far as `errors.Is` can see it: either one of the two
`context` values, or some other value with a message, the targets its own `Is` method
accepts (none when it has no such method) and the errors its `Unwrap` method returns (none
when it has no such method, one for `Unwrap() error`, several for `Unwrap() []error`). -/
inductive GoError where
  | ctx (c : ContextErr)
  | other (msg : String) (accepts : List ContextErr) (unwrap : List GoError)

/-- Go `fmt.Errorf(msg + ": %w", err)`. -/
def GoError.wrap (msg : String) (err : GoError) : GoError := .other msg [] [err]

mutual
/-- The walk of `errors.Is` from a non-nil error towards a `context` target. -/
def GoError.is : GoError → ContextErr → Bool
  | .ctx c, target => decide (c = target)
  | .other _ accepts unwrap, target => accepts.contains target || GoError.isAny unwrap target
/-- The walk of `errors.Is` over the list an `Unwrap() []error` returns. -/
def GoError.isAny : List GoError → ContextErr → Bool
  | [], _ => false
  | err :: errs, target => GoError.is err target || GoError.isAny errs target
end

/-- Go `errors.Is(err, target)` for a non-nil target: a nil `err` matches nothing. -/
def errorsIs : Option GoError → ContextErr → Bool
  | none, _ => false
  | some err, target => err.is target

/-- A `context.Context`, as far as the `run` command builds one. -/
inductive Context where
  | background
  | notify (parent : Context)
  | withTimeout (parent : Context) (timeout : Duration)
  deriving DecidableEq, Repr

/-- A call received by the poller. The second parameter of `Run` is named as in the
contract `Run(ctx, continuous bool, dryRun bool)`. -/
inductive RunnerCall where
  | Run (ctx : Context) (continuous : Bool) (dryRun : Bool)
  | RunOnce (ctx : Context) (dryRun : Bool)
  deriving DecidableEq, Repr

/-- The poller behind `deps.runner`: what each entry point returns. The cycle result of
`RunOnce` is discarded by `executeRun` and is not represented. -/
structure Runner where
  Run : Context → Bool → Bool → Option GoError
  RunOnce : Context → Bool → Option GoError

structure runtimeDeps where
  runner : Runner

/-- A value together with the runner calls made while computing it, in order. -/
abbrev Traced (α : Type) := α × List RunnerCall

/-- The method call `deps.runner.Run(ctx, continuous, dryRun)`. -/
def callRun (deps : runtimeDeps) (ctx : Context) (continuous dryRun : Bool) :
    Traced (Option GoError) :=
  (deps.runner.Run ctx continuous dryRun, [RunnerCall.Run ctx continuous dryRun])

/-- The method call `deps.runner.RunOnce(cctx, dryRun)`, keeping the error only. -/
def callRunOnce (deps : runtimeDeps) (cctx : Context) (dryRun : Bool) :
    Traced (Option GoError) :=
  (deps.runner.RunOnce cctx dryRun, [RunnerCall.RunOnce cctx dryRun])

/-- What a helper of Go type `func(ctx, fn func(context.Context) error) error` does, seen
from its caller: it returns an error, or it calls `fn` with some context and goes on according
to the error `fn` returned. The runner is reachable from the helper through `fn` only. -/
inductive HelperScript where
  | ret (err : Option GoError)
  | call (cctx : Context) (next : Option GoError → HelperScript)

/-- Running a helper with the callback `fn`: its result and the runner calls made. -/
def HelperScript.run (fn : Context → Traced (Option GoError)) :
    HelperScript → Traced (Option GoError)
  | .ret err => (err, [])
  | .call cctx next =>
    let r := fn cctx
    let rest := (next r.1).run fn
    (rest.1, r.2 ++ rest.2)

/-- The helper `runOnceWithTimeout(ctx, fn)`, as a function of the context it is given. -/
abbrev TimeoutHelper := Context → HelperScript

/-- Modelled from the spec: `runOnceWithTimeout` is called by `executeRun` but defined in a
file that is not under src/. The spec says that once mode "is RunOnce with an overall
deadline": the helper derives a context with a deadline from `ctx`, calls `fn` with it once
and returns what `fn` returned. The length of the deadline is not stated. -/
def runOnceWithTimeout (timeout : Duration) : TimeoutHelper :=
  fun ctx => .call (Context.withTimeout ctx timeout) (fun err => .ret err)

/-- Go `executeRun(ctx, deps, once, dryRun)` (`run.go`, lines 37-53), with the helper
`runOnceWithTimeout` it calls as a parameter. -/
def executeRun (helper : TimeoutHelper) (ctx : Context) (deps : runtimeDeps)
    (once dryRun : Bool) : Traced (Option GoError) :=
  if once then
    let r := (helper ctx).run (fun cctx => callRunOnce deps cctx dryRun)
    let err := r.1
    if errorsIs err .Canceled || errorsIs err .DeadlineExceeded then (none, r.2)
    else (err, r.2)
  else
    let r := callRun deps ctx false dryRun
    let err := r.1
    if errorsIs err .Canceled || errorsIs err .DeadlineExceeded then (none, r.2)
    else (err, r.2)

/-! ## Predicates used to state the properties -/

/-- The condition under which every check of `Validate` passes. -/
def Accepts (P : Platform) (cfg : Config) : Prop :=
  0 < cfg.PollInterval ∧ 0 < cfg.Policy.BatchSize ∧ cfg.DetectorOrder ≠ [] ∧
  (∀ name ∈ cfg.DetectorOrder, name ∈ cfg.Detectors.map Prod.fst) ∧
  cfg.State.Path ≠ "" ∧
  (EqualFold P cfg.Output.LogFormat "pretty" = true
    ∨ EqualFold P cfg.Output.LogFormat "json" = true) ∧
  cfg.TSNet.StateDir ≠ "" ∧
  loginModeSupported (ToLower P (TrimSpace cfg.TSNet.LoginMode)) = true ∧
  0 < cfg.TSNet.LoginTimeout ∧
  sourceModeSupported (ToLower P (TrimSpace cfg.Source.Mode)) = true ∧
  (∀ route ∈ cfg.Notifier.Routes, route.EventTypes ≠ [] ∧
    ∀ et ∈ route.EventTypes, TrimSpace et ≠ "" ∧
      (TrimSpace et = "*" ∨ P.IsKnownType (TrimSpace et) = true)) ∧
  (∀ sink ∈ cfg.Notifier.Sinks,
    sinkTypeSupported (ToLower P (TrimSpace sink.Typ)) = true ∧
      (ToLower P (TrimSpace sink.Typ) = "discord" → TrimSpace sink.URL ≠ ""))

/-- Two configurations agree on everything `Validate` is said to check: the two positive
durations and the batch size, the detector order and the keys of the detector map, the state
path, the log format, the tsnet state directory and login mode, the source mode, the event
types of every route, and the type and url of every sink. -/
def sameCheckedFields (a b : Config) : Prop :=
  a.PollInterval = b.PollInterval ∧ a.Policy.BatchSize = b.Policy.BatchSize ∧
  a.DetectorOrder = b.DetectorOrder ∧
  a.Detectors.map Prod.fst = b.Detectors.map Prod.fst ∧
  a.State.Path = b.State.Path ∧ a.Output.LogFormat = b.Output.LogFormat ∧
  a.TSNet.StateDir = b.TSNet.StateDir ∧ a.TSNet.LoginMode = b.TSNet.LoginMode ∧
  a.TSNet.LoginTimeout = b.TSNet.LoginTimeout ∧ a.Source.Mode = b.Source.Mode ∧
  a.Notifier.Routes.map (fun route => route.EventTypes)
    = b.Notifier.Routes.map (fun route => route.EventTypes) ∧
  a.Notifier.Sinks.map (fun sink => (sink.Typ, sink.URL))
    = b.Notifier.Sinks.map (fun sink => (sink.Typ, sink.URL))

/-! ## Concrete inputs -/

/-- The platform used to evaluate `Validate`: ASCII case tables, no event type known. -/
def testPlatform : Platform := asciiPlatform (fun _ => false)

/-- The default configuration with `detector_order` naming `presence` twice. -/
def repeatedOrderConfig : Config :=
  { Default with DetectorOrder := ["presence", "presence"] }

/-- The default configuration with a single sink whose `type` is left empty. -/
def untypedSinkConfig : Config :=
  { Default with
    Notifier := { Default.Notifier with Sinks := [{ Name := "plain", Typ := "", URL := "" }] } }

/-- The default configuration with a route whose only event type is blank. -/
def blankEventTypeConfig : Config :=
  { Default with
    Notifier := { Default.Notifier with
      Routes := [{ EventTypes := [" \t"], Severities := [], Sinks := ["stdout-debug"] }] } }

/-- The default configuration with a discord sink whose url is white space. -/
def discordNoURLConfig : Config :=
  { Default with
    Notifier := { Default.Notifier with
      Sinks := [{ Name := "chat", Typ := " Discord ", URL := "  " }] } }

/-- The default configuration with a discord sink that has a url. -/
def discordConfig : Config :=
  { Default with
    Notifier := { Default.Notifier with
      Sinks := [{ Name := "chat", Typ := "DISCORD", URL := " https://example.test/hook " }] } }

/-- The default configuration with every field that `Validate` does not read changed. -/
def retunedConfig : Config :=
  { Default with
    PollJitter := -1
    PollBackoffMin := 0
    PollBackoffMax := -5
    Detectors := [("presence", { Enabled := false }), ("peer_changes", { Enabled := false }),
                  ("runtime", { Enabled := false })]
    Policy := { DebounceWindow := -3, SuppressionWindow := 7, RateLimitPerMin := -120,
                BatchSize := 20 }
    Notifier :=
      { IdempotencyKeyTTL := 0
        Routes := [{ EventTypes := ["*"], Severities := ["bogus"], Sinks := [] }]
        Sinks := [{ Name := "", Typ := "stdout", URL := "" },
                  { Name := "", Typ := "webhook", URL := "${SLACK_WEBHOOK_URL}" }] }
    State := { Path := ".sentinel/state.json", IdempotencyKeyTTL := -1 }
    Output := { LogFormat := "pretty", LogLevel := "", NoColor := true }
    TSNet :=
      { Hostname := ""
        StateDir := ".sentinel/tsnet"
        AuthKey := "tskey"
        LoginMode := "auto"
        AllowInteractiveFallback := true
        LoginTimeout := 5 * Minute
        AuthKeySource := "flag" } }

/-- A runner whose cycle fails with an error that is not a cancellation. -/
def failingRunner : Runner :=
  { Run := fun _ _ _ => some (.other "fetch snapshot" [] []),
    RunOnce := fun _ _ => some (.other "fetch snapshot" [] []) }

/-- A runner stopped by the shutdown signal: it returns `context.Canceled`, wrapped. -/
def canceledRunner : Runner :=
  { Run := fun _ _ _ => some (GoError.wrap "poll" (.ctx .Canceled)),
    RunOnce := fun _ _ => some (GoError.wrap "poll" (.ctx .Canceled)) }

/-- A helper that calls its callback twice, the second time only after a failure. -/
def retryingHelper : TimeoutHelper :=
  fun ctx => .call ctx (fun err =>
    match err with
    | none => .ret none
    | some _ => .call ctx (fun err2 => .ret err2))

/-- The error returned by the runner call that `executeRun` makes: that of `Run` without
`--once`, that of the `runOnceWithTimeout`-wrapped `RunOnce` with it. -/
def runnerResult (helper : TimeoutHelper) (ctx : Context) (deps : runtimeDeps)
    (once dryRun : Bool) : Option GoError :=
  if once then ((helper ctx).run (fun cctx => callRunOnce deps cctx dryRun)).1
  else (callRun deps ctx false dryRun).1

/-! ## Lemmas about `Validate` and its loops -/

theorem lookup_isSome_iff (detectors : List (String × Detector)) (name : String) :
    (detectors.lookup name).isSome = true ↔ name ∈ detectors.map Prod.fst := by
  induction detectors with
  | nil => simp
  | cons kv rest ih =>
    obtain ⟨k, v⟩ := kv
    by_cases h : name = k
    · subst h
      simp [List.lookup]
    · have hb : (name == k) = false := by simpa using h
      simp [List.lookup, hb, ih, h]

theorem validateDetectorOrder_eq_none (detectors : List (String × Detector))
    (order : List String) :
    validateDetectorOrder detectors order = none ↔
      ∀ name ∈ order, name ∈ detectors.map Prod.fst := by
  induction order with
  | nil => simp [validateDetectorOrder]
  | cons name rest ih =>
    have hk := lookup_isSome_iff detectors name
    rw [List.forall_mem_cons, ← ih, validateDetectorOrder]
    cases hl : detectors.lookup name with
    | none =>
      rw [hl] at hk
      have hn : ¬ name ∈ detectors.map Prod.fst := fun hm => by
        have := hk.mpr hm
        cases this
      have e : (none : Option Detector).isNone = true := rfl
      rw [if_pos e]
      exact ⟨fun hc => (nomatch hc), fun hc => absurd hc.1 hn⟩
    | some d =>
      rw [hl] at hk
      have hm : name ∈ detectors.map Prod.fst := hk.mp rfl
      rw [if_neg (by simp)]
      exact ⟨fun hc => ⟨hm, hc⟩, fun hc => hc.2⟩

theorem validateEventTypes_eq_none (P : Platform) (i j : Nat) (ets : List String) :
    validateEventTypes P i j ets = none ↔
      ∀ et ∈ ets, TrimSpace et ≠ "" ∧
        (TrimSpace et = "*" ∨ P.IsKnownType (TrimSpace et) = true) := by
  induction ets generalizing j with
  | nil => simp [validateEventTypes]
  | cons et rest ih =>
    rw [List.forall_mem_cons, ← ih (j + 1), validateEventTypes]
    by_cases h1 : TrimSpace et = ""
    · rw [if_pos h1]
      exact ⟨fun hc => (nomatch hc), fun hc => absurd h1 hc.1.1⟩
    · rw [if_neg h1]
      by_cases h2 : TrimSpace et ≠ "*" ∧ P.IsKnownType (TrimSpace et) = false
      · rw [if_pos h2]
        refine ⟨fun hc => (nomatch hc), fun hc => ?_⟩
        rcases hc.1.2 with h | h
        · exact absurd h h2.1
        · rw [h2.2] at h; cases h
      · rw [if_neg h2]
        refine ⟨fun hc => ⟨⟨h1, ?_⟩, hc⟩, fun hc => hc.2⟩
        by_cases h3 : TrimSpace et = "*"
        · exact Or.inl h3
        · right
          cases h4 : P.IsKnownType (TrimSpace et)
          · exact absurd ⟨h3, h4⟩ h2
          · rfl

theorem validateRoutes_eq_none (P : Platform) (i : Nat) (routes : List RouteConfig) :
    validateRoutes P i routes = none ↔
      ∀ route ∈ routes, route.EventTypes ≠ [] ∧
        ∀ et ∈ route.EventTypes, TrimSpace et ≠ "" ∧
          (TrimSpace et = "*" ∨ P.IsKnownType (TrimSpace et) = true) := by
  induction routes generalizing i with
  | nil => simp [validateRoutes]
  | cons route rest ih =>
    rw [List.forall_mem_cons, ← ih (i + 1), ← validateEventTypes_eq_none P i 0,
      validateRoutes]
    by_cases h1 : route.EventTypes.length = 0
    · rw [if_pos h1]
      exact ⟨fun hc => (nomatch hc), fun hc => absurd (List.length_eq_zero.mp h1) hc.1.1⟩
    · rw [if_neg h1]
      have h1n : route.EventTypes ≠ [] := fun hc => h1 (List.length_eq_zero.mpr hc)
      cases h2 : validateEventTypes P i 0 route.EventTypes with
      | none => exact ⟨fun hc => ⟨⟨h1n, rfl⟩, hc⟩, fun hc => hc.2⟩
      | some err => exact ⟨fun hc => (nomatch hc), fun hc => by cases hc.1.2⟩

theorem validateSinks_eq_none (P : Platform) (i : Nat) (sinks : List SinkConfig) :
    validateSinks P i sinks = none ↔
      ∀ sink ∈ sinks, sinkTypeSupported (ToLower P (TrimSpace sink.Typ)) = true ∧
        (ToLower P (TrimSpace sink.Typ) = "discord" → TrimSpace sink.URL ≠ "") := by
  induction sinks generalizing i with
  | nil => simp [validateSinks]
  | cons sink rest ih =>
    rw [List.forall_mem_cons, ← ih (i + 1), validateSinks]
    cases h1 : sinkTypeSupported (ToLower P (TrimSpace sink.Typ))
    · rw [if_pos rfl]
      exact ⟨fun hc => (nomatch hc), fun hc => by cases hc.1.1⟩
    · rw [if_neg (by simp)]
      by_cases h2 : ToLower P (TrimSpace sink.Typ) = "discord" ∧ TrimSpace sink.URL = ""
      · rw [if_pos h2]
        exact ⟨fun hc => (nomatch hc), fun hc => absurd h2.2 (hc.1.2 h2.1)⟩
      · rw [if_neg h2]
        exact ⟨fun hc => ⟨⟨rfl, fun hd hu => h2 ⟨hd, hu⟩⟩, hc⟩, fun hc => hc.2⟩

@[simp] theorem cleanStatePath_Output (P : Platform) (cfg : Config) :
    (cleanStatePath P cfg).Output = cfg.Output := by
  unfold cleanStatePath; split <;> rfl

@[simp] theorem cleanStatePath_TSNet (P : Platform) (cfg : Config) :
    (cleanStatePath P cfg).TSNet = cfg.TSNet := by
  unfold cleanStatePath; split <;> rfl

@[simp] theorem cleanStatePath_Source (P : Platform) (cfg : Config) :
    (cleanStatePath P cfg).Source = cfg.Source := by
  unfold cleanStatePath; split <;> rfl

@[simp] theorem cleanStatePath_Notifier (P : Platform) (cfg : Config) :
    (cleanStatePath P cfg).Notifier = cfg.Notifier := by
  unfold cleanStatePath; split <;> rfl

theorem Validate_eq_none (P : Platform) (cfg : Config) :
    Validate P cfg = none ↔ Accepts P cfg := by
  unfold Validate Accepts
  rw [← validateDetectorOrder_eq_none, ← validateRoutes_eq_none P 0,
    ← validateSinks_eq_none P 0]
  by_cases h1 : cfg.PollInterval ≤ 0
  · rw [if_pos h1]
    exact ⟨fun hc => (nomatch hc), fun hc => absurd hc.1 (not_lt.mpr h1)⟩
  rw [if_neg h1]
  by_cases h2 : cfg.Policy.BatchSize ≤ 0
  · rw [if_pos h2]
    exact ⟨fun hc => (nomatch hc), fun hc => absurd hc.2.1 (not_lt.mpr h2)⟩
  rw [if_neg h2]
  by_cases h3 : cfg.DetectorOrder.length = 0
  · rw [if_pos h3]
    exact ⟨fun hc => (nomatch hc), fun hc => absurd (List.length_eq_zero.mp h3) hc.2.2.1⟩
  rw [if_neg h3]
  have h3n : cfg.DetectorOrder ≠ [] := fun hc => h3 (List.length_eq_zero.mpr hc)
  cases h4 : validateDetectorOrder cfg.Detectors cfg.DetectorOrder with
  | some err => exact ⟨fun hc => (nomatch hc), fun hc => by cases hc.2.2.2.1⟩
  | none =>
    simp only [cleanStatePath_Output, cleanStatePath_TSNet, cleanStatePath_Source,
      cleanStatePath_Notifier]
    by_cases h5 : cfg.State.Path = ""
    · rw [if_pos h5]
      exact ⟨fun hc => (nomatch hc), fun hc => absurd h5 hc.2.2.2.2.1⟩
    rw [if_neg h5]
    by_cases h6 : EqualFold P cfg.Output.LogFormat "pretty" = false
        ∧ EqualFold P cfg.Output.LogFormat "json" = false
    · rw [if_pos h6]
      refine ⟨fun hc => (nomatch hc), fun hc => ?_⟩
      rcases hc.2.2.2.2.2.1 with h | h
      · rw [h6.1] at h; cases h
      · rw [h6.2] at h; cases h
    rw [if_neg h6]
    have h6p : EqualFold P cfg.Output.LogFormat "pretty" = true
        ∨ EqualFold P cfg.Output.LogFormat "json" = true := by
      cases ha : EqualFold P cfg.Output.LogFormat "pretty"
      · cases hb : EqualFold P cfg.Output.LogFormat "json"
        · exact absurd ⟨ha, hb⟩ h6
        · exact Or.inr rfl
      · exact Or.inl rfl
    by_cases h7 : cfg.TSNet.StateDir = ""
    · rw [if_pos h7]
      exact ⟨fun hc => (nomatch hc), fun hc => absurd h7 hc.2.2.2.2.2.2.1⟩
    rw [if_neg h7]
    cases h8 : loginModeSupported (ToLower P (TrimSpace cfg.TSNet.LoginMode))
    · rw [if_pos rfl]
      exact ⟨fun hc => (nomatch hc), fun hc => by cases hc.2.2.2.2.2.2.2.1⟩
    rw [if_neg (by simp)]
    by_cases h9 : cfg.TSNet.LoginTimeout ≤ 0
    · rw [if_pos h9]
      exact ⟨fun hc => (nomatch hc),
        fun hc => absurd hc.2.2.2.2.2.2.2.2.1 (not_lt.mpr h9)⟩
    rw [if_neg h9]
    cases h10 : sourceModeSupported (ToLower P (TrimSpace cfg.Source.Mode))
    · rw [if_pos rfl]
      exact ⟨fun hc => (nomatch hc), fun hc => by cases hc.2.2.2.2.2.2.2.2.2.1⟩
    rw [if_neg (by simp)]
    cases h11 : validateRoutes P 0 cfg.Notifier.Routes with
    | some err =>
      exact ⟨fun hc => (nomatch hc), fun hc => by cases hc.2.2.2.2.2.2.2.2.2.2.1⟩
    | none =>
      exact ⟨fun hc => ⟨not_le.mp h1, not_le.mp h2, h3n, trivial, h5, h6p, h7, rfl,
        not_le.mp h9, rfl, rfl, hc⟩, fun hc => hc.2.2.2.2.2.2.2.2.2.2.2⟩

/-! ## Lemmas about the string functions -/

theorem forall_dropWhile_isSpace (cs : List Char) :
    (∀ c ∈ cs.dropWhile IsSpace, IsSpace c = true) ↔ ∀ c ∈ cs, IsSpace c = true := by
  induction cs with
  | nil => simp
  | cons c rest ih =>
    cases hc : IsSpace c
    · have hd : (c :: rest).dropWhile IsSpace = c :: rest := by simp [List.dropWhile, hc]
      rw [hd]
    · have hd : (c :: rest).dropWhile IsSpace = rest.dropWhile IsSpace := by
        simp [List.dropWhile, hc]
      rw [hd, ih, List.forall_mem_cons]
      exact ⟨fun h => ⟨hc, h⟩, fun h => h.2⟩

theorem trimRunes_eq_nil (cs : List Char) :
    trimRunes cs = [] ↔ ∀ c ∈ cs, IsSpace c = true := by
  unfold trimRunes
  rw [List.reverse_eq_nil_iff, List.dropWhile_eq_nil_iff, ← forall_dropWhile_isSpace cs]
  constructor
  · intro h c hc
    exact h c (List.mem_reverse.mpr hc)
  · intro h c hc
    exact h c (List.mem_reverse.mp hc)

/-- `TrimSpace` returns the empty string exactly on strings made of white space only. -/
theorem TrimSpace_eq_empty (s : String) :
    TrimSpace s = "" ↔ ∀ c ∈ s.data, IsSpace c = true := by
  rw [← trimRunes_eq_nil]
  unfold TrimSpace
  constructor
  · intro h
    exact congrArg String.data h
  · intro h
    rw [h]

theorem containsRunes_iff (sub cs : List Char) :
    containsRunes sub cs = true ↔ sub <:+: cs := by
  induction cs with
  | nil =>
    rw [containsRunes, List.isPrefixOf_iff_prefix, List.prefix_nil, List.infix_nil]
  | cons c rest ih =>
    rw [containsRunes, Bool.or_eq_true, List.isPrefixOf_iff_prefix, ih, List.infix_cons_iff]

theorem infix_dropWhile_isSpace (a : Char) (sub cs : List Char) (ha : IsSpace a = false) :
    (a :: sub) <:+: cs.dropWhile IsSpace ↔ (a :: sub) <:+: cs := by
  induction cs with
  | nil => simp
  | cons c rest ih =>
    cases hc : IsSpace c
    · have hd : (c :: rest).dropWhile IsSpace = c :: rest := by simp [List.dropWhile, hc]
      rw [hd]
    · have hd : (c :: rest).dropWhile IsSpace = rest.dropWhile IsSpace := by
        simp [List.dropWhile, hc]
      rw [hd, ih, List.infix_cons_iff]
      constructor
      · exact fun h => Or.inr h
      · intro h
        rcases h with h | h
        · have hac := (List.cons_prefix_cons.mp h).1
          rw [hac, hc] at ha
          cases ha
        · exact h

/-- Trimming white space neither creates nor destroys an occurrence of `${`. -/
theorem Contains_TrimSpace_placeholder (s : String) :
    Contains (TrimSpace s) "$\x7b" = Contains s "$\x7b" := by
  have key : (['$', '{'] <:+: trimRunes s.data) ↔ (['$', '{'] <:+: s.data) := by
    unfold trimRunes
    rw [← List.reverse_infix, List.reverse_reverse]
    have hr : (['$', '{'] : List Char).reverse = ['{', '$'] := rfl
    rw [hr, infix_dropWhile_isSpace '{' ['$'] _ (by decide)]
    have hr2 : (['{', '$'] : List Char) = (['$', '{'] : List Char).reverse := rfl
    rw [hr2, List.reverse_infix]
    exact infix_dropWhile_isSpace '$' ['{'] _ (by decide)
  have e1 : Contains (TrimSpace s) "$\x7b" = containsRunes ['$', '{'] (trimRunes s.data) := rfl
  have e2 : Contains s "$\x7b" = containsRunes ['$', '{'] s.data := rfl
  rw [e1, e2]
  cases h1 : containsRunes ['$', '{'] (trimRunes s.data)
  · cases h2 : containsRunes ['$', '{'] s.data
    · rfl
    · rw [(containsRunes_iff _ _).mpr (key.mpr ((containsRunes_iff _ _).mp h2))] at h1
      cases h1
  · exact ((containsRunes_iff _ _).mpr (key.mp ((containsRunes_iff _ _).mp h1))).symm

theorem loginModeSupported_iff (mode : String) :
    loginModeSupported mode = true ↔
      mode = "" ∨ mode = "auto" ∨ mode = "auth_key" ∨ mode = "interactive" := by
  simp [loginModeSupported, or_assoc]

theorem sourceModeSupported_iff (sourceMode : String) :
    sourceModeSupported sourceMode = true ↔
      sourceMode = "" ∨ sourceMode = "realtime" ∨ sourceMode = "poll" := by
  simp [sourceModeSupported, or_assoc]

theorem sinkTypeSupported_iff (sinkType : String) :
    sinkTypeSupported sinkType = true ↔
      sinkType = "" ∨ sinkType = "webhook" ∨ sinkType = "stdout" ∨ sinkType = "debug"
        ∨ sinkType = "discord" := by
  simp [sinkTypeSupported, or_assoc]

theorem expandSinks_eq_map (P : Platform) (sinks : List SinkConfig) :
    expandSinks P sinks = sinks.map (expandSink P) := by
  induction sinks with
  | nil => rfl
  | cons sink rest ih => rw [expandSinks, ih, List.map_cons]

theorem expandSink_eq (P : Platform) (sink : SinkConfig) :
    expandSink P sink =
      { sink with URL := if Contains sink.URL "$\x7b" = true
                         then P.ExpandEnv (TrimSpace sink.URL) else sink.URL } := by
  unfold expandSink
  simp only [Contains_TrimSpace_placeholder]
  cases h : Contains sink.URL "$\x7b" <;> simp

theorem validateDetectorOrder_congr (a b : List (String × Detector)) (order : List String)
    (h : a.map Prod.fst = b.map Prod.fst) :
    validateDetectorOrder a order = validateDetectorOrder b order := by
  induction order with
  | nil => rfl
  | cons name rest ih =>
    have hk : (a.lookup name).isNone = (b.lookup name).isNone := by
      have ha := lookup_isSome_iff a name
      have hb := lookup_isSome_iff b name
      rw [h] at ha
      cases hx : a.lookup name <;> cases hy : b.lookup name <;> simp_all
    rw [validateDetectorOrder, validateDetectorOrder, hk, ih]

theorem validateRoutes_congr (P : Platform) (i : Nat) (a b : List RouteConfig)
    (h : a.map (fun route => route.EventTypes) = b.map (fun route => route.EventTypes)) :
    validateRoutes P i a = validateRoutes P i b := by
  induction a generalizing b i with
  | nil =>
    cases b with
    | nil => rfl
    | cons y ys => cases h
  | cons x xs ih =>
    cases b with
    | nil => cases h
    | cons y ys =>
      rw [List.map_cons, List.map_cons] at h
      have hx : x.EventTypes = y.EventTypes := (List.cons.inj h).1
      rw [validateRoutes, validateRoutes, hx, ih (i + 1) ys (List.cons.inj h).2]

theorem validateSinks_congr (P : Platform) (i : Nat) (a b : List SinkConfig)
    (h : a.map (fun sink => (sink.Typ, sink.URL)) = b.map (fun sink => (sink.Typ, sink.URL))) :
    validateSinks P i a = validateSinks P i b := by
  induction a generalizing b i with
  | nil =>
    cases b with
    | nil => rfl
    | cons y ys => cases h
  | cons x xs ih =>
    cases b with
    | nil => cases h
    | cons y ys =>
      rw [List.map_cons, List.map_cons] at h
      have hxy := (List.cons.inj h).1
      have ht : x.Typ = y.Typ := congrArg Prod.fst hxy
      have hu : x.URL = y.URL := congrArg Prod.snd hxy
      rw [validateSinks, validateSinks, ht, hu, ih (i + 1) ys (List.cons.inj h).2]

theorem Validate_congr (P : Platform) (a b : Config) (h : sameCheckedFields a b) :
    Validate P a = Validate P b := by
  obtain ⟨h1, h2, h3, h4, h5, h6, h7, h8, h9, h10, h11, h12⟩ := h
  unfold Validate
  simp only [cleanStatePath_Output, cleanStatePath_TSNet, cleanStatePath_Source,
    cleanStatePath_Notifier]
  rw [h1, h2, h3, validateDetectorOrder_congr a.Detectors b.Detectors _ h4, h5, h6, h7, h8,
    h9, h10, validateRoutes_congr P 0 _ _ h11, validateSinks_congr P 0 _ _ h12]

/-! ## Properties of `Validate` -/

/-- C2, as stated, fails: `Validate` accepts the default configuration with `detector_order`
set to `[presence, presence]`, in which a name occurs twice and the detectors `peer_changes`
and `runtime` do not occur. -/
theorem C2_counterexample :
    Validate testPlatform repeatedOrderConfig = none ∧
      ¬ repeatedOrderConfig.DetectorOrder.Nodup ∧
      ¬ (∀ name ∈ repeatedOrderConfig.Detectors.map Prod.fst,
          name ∈ repeatedOrderConfig.DetectorOrder) := by
  decide

/-- C2, amended: if `Validate` returns no error then `detector_order` is non-empty and every
name in it is a key of the `detectors` map. -/
theorem C2_detector_order_known (P : Platform) (cfg : Config)
    (h : Validate P cfg = none) :
    cfg.DetectorOrder ≠ [] ∧
      ∀ name ∈ cfg.DetectorOrder, name ∈ cfg.Detectors.map Prod.fst := by
  have ha := (Validate_eq_none P cfg).mp h
  exact ⟨ha.2.2.1, ha.2.2.2.1⟩

theorem C2_detector_order_known_witness :
    Validate testPlatform Default = none ∧
      (Default.DetectorOrder ≠ [] ∧
        ∀ name ∈ Default.DetectorOrder, name ∈ Default.Detectors.map Prod.fst) :=
  ⟨by decide, C2_detector_order_known testPlatform Default (by decide)⟩

/-- C3: if `Validate` returns no error then every route has at least one event type and each
of its event types, trimmed, is non-empty and is `*` or a known type; conversely a
configuration with a route that has no event types, a blank event type (white space only), or
an event type that trimmed is neither `*` nor known, is rejected with an error. -/
theorem C3_route_event_types (P : Platform) (cfg : Config) :
    (Validate P cfg = none →
      ∀ route ∈ cfg.Notifier.Routes, route.EventTypes ≠ [] ∧
        ∀ et ∈ route.EventTypes, TrimSpace et ≠ "" ∧
          (TrimSpace et = "*" ∨ P.IsKnownType (TrimSpace et) = true)) ∧
    ((∃ route ∈ cfg.Notifier.Routes, route.EventTypes = [] ∨
        ∃ et ∈ route.EventTypes, (∀ c ∈ et.data, IsSpace c = true) ∨
          (TrimSpace et ≠ "*" ∧ P.IsKnownType (TrimSpace et) = false)) →
      ∃ err, Validate P cfg = some err) := by
  constructor
  · intro h
    exact ((Validate_eq_none P cfg).mp h).2.2.2.2.2.2.2.2.2.2.1
  · intro hbad
    cases hv : Validate P cfg with
    | some err => exact ⟨err, rfl⟩
    | none =>
      exfalso
      have hr := ((Validate_eq_none P cfg).mp hv).2.2.2.2.2.2.2.2.2.2.1
      obtain ⟨route, hmem, hcase⟩ := hbad
      have hroute := hr route hmem
      rcases hcase with hempty | ⟨et, het, hblank | hunknown⟩
      · exact hroute.1 hempty
      · exact (hroute.2 et het).1 ((TrimSpace_eq_empty et).mpr hblank)
      · rcases (hroute.2 et het).2 with hstar | hknown
        · exact hunknown.1 hstar
        · rw [hunknown.2] at hknown
          cases hknown

theorem C3_route_event_types_witness :
    (∀ route ∈ Default.Notifier.Routes, route.EventTypes ≠ [] ∧
        ∀ et ∈ route.EventTypes, TrimSpace et ≠ "" ∧
          (TrimSpace et = "*" ∨ testPlatform.IsKnownType (TrimSpace et) = true)) ∧
      ∃ err, Validate testPlatform blankEventTypeConfig = some err :=
  ⟨(C3_route_event_types testPlatform Default).1 (by decide),
   (C3_route_event_types testPlatform blankEventTypeConfig).2
     ⟨{ EventTypes := [" \t"], Severities := [], Sinks := ["stdout-debug"] },
      by decide, Or.inr ⟨" \t", by decide, Or.inl (by decide)⟩⟩⟩

/-- C4, as stated, fails: `Validate` accepts a configuration with a sink whose `type` is the
empty string, which is none of stdout, webhook, discord, debug. -/
theorem C4_counterexample :
    Validate testPlatform untypedSinkConfig = none ∧
      ∃ sink ∈ untypedSinkConfig.Notifier.Sinks,
        ToLower testPlatform (TrimSpace sink.Typ) ∉ ["stdout", "webhook", "discord", "debug"] := by
  decide

/-- C4, amended: if `Validate` returns no error then the `type` of every sink, trimmed and
lower-cased, is empty or one of stdout, webhook, discord, debug. -/
theorem C4_sink_type_supported (P : Platform) (cfg : Config)
    (h : Validate P cfg = none) :
    ∀ sink ∈ cfg.Notifier.Sinks,
      ToLower P (TrimSpace sink.Typ) ∈ ["", "stdout", "webhook", "discord", "debug"] := by
  intro sink hmem
  have hs := (((Validate_eq_none P cfg).mp h).2.2.2.2.2.2.2.2.2.2.2 sink hmem).1
  rcases (sinkTypeSupported_iff _).mp hs with h | h | h | h | h <;> rw [h] <;> decide

theorem C4_sink_type_supported_witness :
    Validate testPlatform untypedSinkConfig = none ∧
      ∀ sink ∈ untypedSinkConfig.Notifier.Sinks,
        ToLower testPlatform (TrimSpace sink.Typ)
          ∈ ["", "stdout", "webhook", "discord", "debug"] :=
  ⟨by decide, C4_sink_type_supported testPlatform untypedSinkConfig (by decide)⟩

/-- C5: a configuration with a sink whose type, trimmed and lower-cased, is `discord` and
whose url is empty or white space only is rejected with an error; and in a configuration that
`Validate` accepts every discord sink has a url with a character that is not white space. -/
theorem C5_discord_needs_url (P : Platform) (cfg : Config) :
    ((∃ sink ∈ cfg.Notifier.Sinks, ToLower P (TrimSpace sink.Typ) = "discord" ∧
        ∀ c ∈ sink.URL.data, IsSpace c = true) →
      ∃ err, Validate P cfg = some err) ∧
    (Validate P cfg = none →
      ∀ sink ∈ cfg.Notifier.Sinks, ToLower P (TrimSpace sink.Typ) = "discord" →
        ∃ c ∈ sink.URL.data, IsSpace c = false) := by
  have key : Validate P cfg = none →
      ∀ sink ∈ cfg.Notifier.Sinks, ToLower P (TrimSpace sink.Typ) = "discord" →
        ¬ ∀ c ∈ sink.URL.data, IsSpace c = true := by
    intro h sink hmem hd hblank
    have hs := (((Validate_eq_none P cfg).mp h).2.2.2.2.2.2.2.2.2.2.2 sink hmem).2 hd
    exact hs ((TrimSpace_eq_empty sink.URL).mpr hblank)
  constructor
  · intro hbad
    cases hv : Validate P cfg with
    | some err => exact ⟨err, rfl⟩
    | none =>
      obtain ⟨sink, hmem, hd, hblank⟩ := hbad
      exact absurd hblank (key hv sink hmem hd)
  · intro h sink hmem hd
    by_contra hno
    apply key h sink hmem hd
    intro c hc
    cases hsp : IsSpace c
    · exact absurd ⟨c, hc, hsp⟩ hno
    · rfl

theorem C5_discord_needs_url_witness :
    (∃ err, Validate testPlatform discordNoURLConfig = some err) ∧
      ∀ sink ∈ discordConfig.Notifier.Sinks,
        ToLower testPlatform (TrimSpace sink.Typ) = "discord" →
          ∃ c ∈ sink.URL.data, IsSpace c = false :=
  ⟨(C5_discord_needs_url testPlatform discordNoURLConfig).1
     ⟨{ Name := "chat", Typ := " Discord ", URL := "  " }, by decide, by decide, by decide⟩,
   (C5_discord_needs_url testPlatform discordConfig).2 (by decide)⟩

/-- C8: `Validate` returns nil exactly when every one of its checks passes, and its result
is the same for two configurations that agree on the fields those checks read (so the poll
jitter and backoff, the rate limit, the windows, the TTLs, the sinks and severities of routes
and the names of sinks have no influence). -/
theorem C8_validate_iff_checks (P : Platform) (cfg : Config) :
    (Validate P cfg = none ↔
      0 < cfg.PollInterval ∧
      0 < cfg.Policy.BatchSize ∧
      (cfg.DetectorOrder ≠ [] ∧
        ∀ name ∈ cfg.DetectorOrder, name ∈ cfg.Detectors.map Prod.fst) ∧
      cfg.State.Path ≠ "" ∧
      (EqualFold P cfg.Output.LogFormat "pretty" = true
        ∨ EqualFold P cfg.Output.LogFormat "json" = true) ∧
      cfg.TSNet.StateDir ≠ "" ∧
      ToLower P (TrimSpace cfg.TSNet.LoginMode) ∈ ["", "auto", "auth_key", "interactive"] ∧
      0 < cfg.TSNet.LoginTimeout ∧
      ToLower P (TrimSpace cfg.Source.Mode) ∈ ["", "realtime", "poll"] ∧
      (∀ route ∈ cfg.Notifier.Routes, route.EventTypes ≠ [] ∧
        ∀ et ∈ route.EventTypes, TrimSpace et ≠ "" ∧
          (TrimSpace et = "*" ∨ P.IsKnownType (TrimSpace et) = true)) ∧
      (∀ sink ∈ cfg.Notifier.Sinks,
        ToLower P (TrimSpace sink.Typ) ∈ ["", "webhook", "stdout", "debug", "discord"] ∧
          (ToLower P (TrimSpace sink.Typ) = "discord" → TrimSpace sink.URL ≠ ""))) ∧
    (∀ other : Config, sameCheckedFields cfg other → Validate P other = Validate P cfg) := by
  constructor
  · rw [Validate_eq_none]
    unfold Accepts
    have e1 : ∀ m : String, m ∈ ["", "auto", "auth_key", "interactive"] ↔
        loginModeSupported m = true := fun m => by
      rw [loginModeSupported_iff]; simp
    have e2 : ∀ m : String, m ∈ ["", "realtime", "poll"] ↔
        sourceModeSupported m = true := fun m => by
      rw [sourceModeSupported_iff]; simp
    have e3 : ∀ m : String, m ∈ ["", "webhook", "stdout", "debug", "discord"] ↔
        sinkTypeSupported m = true := fun m => by
      rw [sinkTypeSupported_iff]; simp
    simp only [e1, e2, e3, and_assoc]
  · intro other h
    exact (Validate_congr P cfg other h).symm

theorem C8_validate_iff_checks_witness :
    sameCheckedFields Default retunedConfig ∧
      Validate testPlatform retunedConfig = Validate testPlatform Default :=
  ⟨by unfold sameCheckedFields; decide,
   (C8_validate_iff_checks testPlatform Default).2 retunedConfig
     (by unfold sameCheckedFields; decide)⟩

/-- C9: the default configuration passes `Validate` whatever `event.IsKnownType` answers
(and whatever the platform tables are), its `detector_order` is the duplicate-free list
`[presence, peer_changes, runtime]` holding exactly the keys of its detector map, and its poll
timing satisfies `0 <= poll_jitter` and `0 < poll_backoff_min <= poll_backoff_max`. -/
theorem C9_default_valid (P : Platform) :
    Validate P Default = none ∧
      Default.DetectorOrder = ["presence", "peer_changes", "runtime"] ∧
      Default.DetectorOrder.Nodup ∧
      (∀ name, name ∈ Default.DetectorOrder ↔ name ∈ Default.Detectors.map Prod.fst) ∧
      (Default.Detectors.map Prod.fst).Nodup ∧
      0 ≤ Default.PollJitter ∧
      0 < Default.PollBackoffMin ∧
      Default.PollBackoffMin ≤ Default.PollBackoffMax := by
  refine ⟨?_, rfl, by decide, fun name => Iff.rfl, by decide, by decide, by decide, by decide⟩
  rw [Validate_eq_none]
  refine ⟨by decide, by decide, by decide, by decide, by decide, Or.inl rfl, by decide, rfl,
    by decide, rfl, ?_, ?_⟩
  · intro route hroute
    have hr : route = { EventTypes := ["*"], Severities := [], Sinks := ["stdout-debug"] } :=
      List.mem_singleton.mp hroute
    subst hr
    refine ⟨by decide, ?_⟩
    intro et het
    have he : et = "*" := List.mem_singleton.mp het
    subst he
    exact ⟨by decide, Or.inl (by decide)⟩
  · intro sink hsink
    have hs : sink = { Name := "stdout-debug", Typ := "stdout", URL := "" } ∨
        sink = { Name := "webhook-primary", Typ := "webhook", URL := "${SLACK_WEBHOOK_URL}" } := by
      rcases List.mem_cons.mp hsink with h | h
      · exact Or.inl h
      · exact Or.inr (List.mem_singleton.mp h)
    rcases hs with rfl | rfl
    · refine ⟨rfl, fun h => ?_⟩
      have e : ToLower P (TrimSpace "stdout") = "stdout" := rfl
      rw [e] at h
      exact absurd h (by decide)
    · refine ⟨rfl, fun h => ?_⟩
      have e : ToLower P (TrimSpace "webhook") = "webhook" := rfl
      rw [e] at h
      exact absurd h (by decide)

/-! ## Properties of `expandEnvPlaceholders` -/

/-- C10: `expandEnvPlaceholders` changes nothing but the url of the sinks whose url contains
`${`: the configuration after the call is the one before it with each such url replaced by the
environment expansion of its trimmed form; the number and order of sinks, their names and
types, the urls without `${` and every other field are as before. -/
theorem C10_expand_frame (P : Platform) (cfg : Config) :
    expandEnvPlaceholders P cfg =
      { cfg with Notifier := { cfg.Notifier with
          Sinks := cfg.Notifier.Sinks.map fun sink =>
            { sink with URL := if Contains sink.URL "$\x7b" = true
                               then P.ExpandEnv (TrimSpace sink.URL) else sink.URL } } } ∧
    (expandEnvPlaceholders P cfg).Notifier.Sinks.length = cfg.Notifier.Sinks.length ∧
    (expandEnvPlaceholders P cfg).Notifier.Sinks.map (fun sink => sink.Name)
      = cfg.Notifier.Sinks.map (fun sink => sink.Name) ∧
    (expandEnvPlaceholders P cfg).Notifier.Sinks.map (fun sink => sink.Typ)
      = cfg.Notifier.Sinks.map (fun sink => sink.Typ) ∧
    (expandEnvPlaceholders P cfg).Notifier.Sinks.map (fun sink => sink.URL)
      = cfg.Notifier.Sinks.map (fun sink =>
          if Contains sink.URL "$\x7b" = true then P.ExpandEnv (TrimSpace sink.URL)
          else sink.URL) ∧
    (expandEnvPlaceholders P cfg).Notifier.Routes = cfg.Notifier.Routes ∧
    (expandEnvPlaceholders P cfg).Notifier.IdempotencyKeyTTL = cfg.Notifier.IdempotencyKeyTTL ∧
    (expandEnvPlaceholders P cfg).PollInterval = cfg.PollInterval ∧
    (expandEnvPlaceholders P cfg).PollJitter = cfg.PollJitter ∧
    (expandEnvPlaceholders P cfg).PollBackoffMin = cfg.PollBackoffMin ∧
    (expandEnvPlaceholders P cfg).PollBackoffMax = cfg.PollBackoffMax ∧
    (expandEnvPlaceholders P cfg).Source = cfg.Source ∧
    (expandEnvPlaceholders P cfg).Detectors = cfg.Detectors ∧
    (expandEnvPlaceholders P cfg).DetectorOrder = cfg.DetectorOrder ∧
    (expandEnvPlaceholders P cfg).Policy = cfg.Policy ∧
    (expandEnvPlaceholders P cfg).State = cfg.State ∧
    (expandEnvPlaceholders P cfg).Output = cfg.Output ∧
    (expandEnvPlaceholders P cfg).TSNet = cfg.TSNet := by
  have hs : (expandEnvPlaceholders P cfg).Notifier.Sinks =
      cfg.Notifier.Sinks.map fun sink =>
        { sink with URL := if Contains sink.URL "$\x7b" = true
                           then P.ExpandEnv (TrimSpace sink.URL) else sink.URL } := by
    show expandSinks P cfg.Notifier.Sinks = _
    rw [expandSinks_eq_map]
    exact List.map_congr_left fun sink _ => expandSink_eq P sink
  refine ⟨?_, ?_, ?_, ?_, ?_, rfl, rfl, rfl, rfl, rfl, rfl, rfl, rfl, rfl, rfl, rfl, rfl, rfl⟩
  · show ({ cfg with Notifier := { cfg.Notifier with
        Sinks := expandSinks P cfg.Notifier.Sinks } } : Config) = _
    have hs2 : expandSinks P cfg.Notifier.Sinks = _ := hs
    rw [hs2]
  · rw [hs, List.length_map]
  · rw [hs, List.map_map]
    rfl
  · rw [hs, List.map_map]
    rfl
  · rw [hs, List.map_map]
    rfl

/-! ## Properties of `executeRun` -/

theorem executeRun_result (helper : TimeoutHelper) (ctx : Context) (deps : runtimeDeps)
    (once dryRun : Bool) :
    (executeRun helper ctx deps once dryRun).1 =
      if errorsIs (runnerResult helper ctx deps once dryRun) .Canceled
          || errorsIs (runnerResult helper ctx deps once dryRun) .DeadlineExceeded
      then none else runnerResult helper ctx deps once dryRun := by
  cases once
  · simp only [executeRun, runnerResult, Bool.false_eq_true, if_false]
    split <;> rfl
  · simp only [executeRun, runnerResult, if_true]
    split <;> rfl

/-- C1: `executeRun` returns nil exactly when the error of its runner call is nil or
is or wraps `context.Canceled` or `context.DeadlineExceeded`, and otherwise returns that error
unchanged, for both values of `once` and of `dryRun`. -/
theorem C1_cancellation_is_not_an_error (helper : TimeoutHelper) (ctx : Context)
    (deps : runtimeDeps) (once dryRun : Bool) :
    ((executeRun helper ctx deps once dryRun).1 = none ↔
      (runnerResult helper ctx deps once dryRun = none ∨
        errorsIs (runnerResult helper ctx deps once dryRun) .Canceled = true ∨
        errorsIs (runnerResult helper ctx deps once dryRun) .DeadlineExceeded = true)) ∧
    (¬ (runnerResult helper ctx deps once dryRun = none ∨
        errorsIs (runnerResult helper ctx deps once dryRun) .Canceled = true ∨
        errorsIs (runnerResult helper ctx deps once dryRun) .DeadlineExceeded = true) →
      (executeRun helper ctx deps once dryRun).1 = runnerResult helper ctx deps once dryRun) := by
  rw [executeRun_result]
  generalize runnerResult helper ctx deps once dryRun = e
  cases hc : errorsIs e .Canceled <;> cases hd : errorsIs e .DeadlineExceeded <;> simp

theorem C1_cancellation_is_not_an_error_witness :
    (executeRun (runOnceWithTimeout (30 * Second)) .background ⟨failingRunner⟩ true false).1
        = runnerResult (runOnceWithTimeout (30 * Second)) .background ⟨failingRunner⟩ true false ∧
      (executeRun retryingHelper .background ⟨canceledRunner⟩ true true).1 = none :=
  ⟨(C1_cancellation_is_not_an_error (runOnceWithTimeout (30 * Second)) .background
      ⟨failingRunner⟩ true false).2
      (fun h => h.elim
        (fun h0 => by
          have h1 : (some (GoError.other "fetch snapshot" [] []) : Option GoError) = none := h0
          cases h1)
        (fun h0 => h0.elim (fun h1 => absurd h1 (by decide)) (fun h1 => absurd h1 (by decide)))),
   (C1_cancellation_is_not_an_error retryingHelper .background ⟨canceledRunner⟩ true true).1.mpr
      (Or.inr (Or.inl (by decide)))⟩

theorem run_calls_are_RunOnce (deps : runtimeDeps) (dryRun : Bool) (script : HelperScript) :
    ∀ call ∈ (script.run (fun cctx => callRunOnce deps cctx dryRun)).2,
      ∃ cctx, call = RunnerCall.RunOnce cctx dryRun := by
  induction script with
  | ret err =>
    intro call h
    cases h
  | call cctx next ih =>
    intro call h
    rw [HelperScript.run] at h
    rcases List.mem_append.mp h with h1 | h2
    · exact ⟨cctx, List.mem_singleton.mp h1⟩
    · exact ih _ call h2

theorem executeRun_calls (helper : TimeoutHelper) (ctx : Context) (deps : runtimeDeps)
    (once dryRun : Bool) :
    (executeRun helper ctx deps once dryRun).2 =
      if once then ((helper ctx).run (fun cctx => callRunOnce deps cctx dryRun)).2
      else [RunnerCall.Run ctx false dryRun] := by
  cases once
  · simp only [executeRun, Bool.false_eq_true, if_false]
    split <;> rfl
  · simp only [executeRun, if_true]
    split <;> rfl

/-- C7: `executeRun` uses one entry point of the poller per invocation and hands `dryRun` on
unaltered. Whatever the helper does with its callback, every runner call made when `once` is
true is `RunOnce(_, dryRun)` and none is `Run`; when `once` is false the only call is
`Run(ctx, false, dryRun)` and none is `RunOnce`; and with the helper as the spec describes it
the calls made when `once` is true are exactly the one call `RunOnce(cctx, dryRun)` under the
context with the deadline. -/
theorem C7_one_entry_point (helper : TimeoutHelper) (timeout : Duration) (ctx : Context)
    (deps : runtimeDeps) (dryRun : Bool) :
    (∀ call ∈ (executeRun helper ctx deps true dryRun).2,
        (∃ cctx, call = RunnerCall.RunOnce cctx dryRun) ∧
          ∀ c continuous d, call ≠ RunnerCall.Run c continuous d) ∧
      (executeRun (runOnceWithTimeout timeout) ctx deps true dryRun).2
        = [RunnerCall.RunOnce (Context.withTimeout ctx timeout) dryRun] ∧
      (executeRun helper ctx deps false dryRun).2 = [RunnerCall.Run ctx false dryRun] ∧
      (∀ call ∈ (executeRun helper ctx deps false dryRun).2,
        ∀ c d, call ≠ RunnerCall.RunOnce c d) := by
  refine ⟨?_, ?_, ?_, ?_⟩
  · intro call h
    rw [executeRun_calls, if_pos rfl] at h
    obtain ⟨cctx, hc⟩ := run_calls_are_RunOnce deps dryRun (helper ctx) call h
    refine ⟨⟨cctx, hc⟩, ?_⟩
    intro c continuous d hrun
    rw [hc] at hrun
    cases hrun
  · rw [executeRun_calls, if_pos rfl]
    rfl
  · rw [executeRun_calls]
    rfl
  · intro call h c d hrun
    rw [executeRun_calls] at h
    have hcall : call = RunnerCall.Run ctx false dryRun := List.mem_singleton.mp h
    rw [hcall] at hrun
    cases hrun

theorem C7_one_entry_point_witness :
    ((∃ cctx, RunnerCall.RunOnce .background true = RunnerCall.RunOnce cctx true) ∧
        ∀ c continuous d,
          RunnerCall.RunOnce .background true ≠ RunnerCall.Run c continuous d) ∧
      ∀ c d, RunnerCall.Run .background false true ≠ RunnerCall.RunOnce c d :=
  ⟨(C7_one_entry_point retryingHelper (30 * Second) .background ⟨failingRunner⟩ true).1
      (RunnerCall.RunOnce .background true) (by decide),
   (C7_one_entry_point retryingHelper (30 * Second) .background ⟨failingRunner⟩ true).2.2.2
      (RunnerCall.Run .background false true) (by decide)⟩

end Sentinel
